import Mathlib

/-!
Verification of the session reconstruction and aggregation engine of the
claude-sdk repository (JSONL session-log parser and analyzer).

The Python source is shallowly embedded: Pydantic models become Lean
structures, Python dicts become insertion-ordered association lists,
floats are modelled as exact rationals, and the parser's exception
routing becomes `Except`.  Parts of the repository that exist only as
call sites in the source tree (the session assembler
`ParsedSession.from_message_records` and the populated conversation
tree) are modelled from the specification and marked as such.
-/

namespace ClaudeSDK

/-! ## Python dict model: insertion-ordered association lists

`dictSet` overwrites in place when the key exists (keeping its
position) and appends otherwise, matching CPython dict semantics. -/

def dictGet {V : Type} : List (String × V) → String → Option V
  | [], _ => none
  | kv :: rest, k => if kv.1 = k then some kv.2 else dictGet rest k

def dictGetD {V : Type} (d : List (String × V)) (k : String) (v0 : V) : V :=
  (dictGet d k).getD v0

def dictSet {V : Type} : List (String × V) → String → V → List (String × V)
  | [], k, v => [(k, v)]
  | kv :: rest, k, v =>
      if kv.1 = k then (k, v) :: rest else kv :: dictSet rest k v

/-! ## JSON values (the decoded form produced by `json.loads`) -/

inductive Json : Type where
  | null : Json
  | bool (b : Bool) : Json
  | num (n : ℚ) : Json
  | str (s : String) : Json
  | arr (elems : List Json) : Json
  | obj (fields : List (String × Json)) : Json
  deriving Repr

/-! ## Enumerations from `models.py` -/

inductive UserType : Type where
  | external
  | internal
  deriving DecidableEq, Repr

inductive MessageType : Type where
  | user
  | assistant
  deriving DecidableEq, Repr

inductive Role : Type where
  | user
  | assistant
  deriving DecidableEq, Repr

inductive StopReason : Type where
  | end_turn
  | max_tokens
  | stop_sequence
  deriving DecidableEq, Repr

/-! ## Content blocks (`TextBlock`, `ThinkingBlock`, `ToolUseBlock`)

`Message.content` has type `list[MessageContentBlock]` where
`MessageContentBlock = TextBlock | ThinkingBlock | ToolUseBlock`
(the union excludes `ToolResultBlock`), so the message-level content
entry is embedded as a three-variant sum.  The `input` payload of a
tool use is an arbitrary JSON object (`dict[str, Any]`). -/

inductive MessageContentBlock : Type where
  | text (text : String)
  | thinking (thinking : String) (signature : String)
  | toolUse (id : String) (name : String) (input : List (String × Json))
  deriving Repr

/-- `TokenUsage`: token usage statistics for a message. -/
structure TokenUsage : Type where
  input_tokens : ℕ
  cache_creation_input_tokens : ℕ := 0
  cache_read_input_tokens : ℕ := 0
  output_tokens : ℕ
  service_tier : String := "standard"
  deriving Repr

/-- `ToolResult`: structured tool execution result metadata. -/
structure ToolResult : Type where
  tool_use_id : String
  content : String
  stdout : Option String := none
  stderr : Option String := none
  interrupted : Bool := false
  is_error : Bool := false
  metadata : List (String × Json) := []
  deriving Repr

/-- `Message`: message content within a conversation record. -/
structure Message : Type where
  id : Option String := none
  role : Role
  model : Option String := none
  content : List MessageContentBlock
  stop_reason : Option StopReason := none
  usage : Option TokenUsage := none
  deriving Repr

/-- `MessageRecord`: one complete JSONL message record.  UUIDs are
embedded as strings, timestamps as integers (epoch), paths as strings,
and the float `cost_usd` as an exact rational. -/
structure MessageRecord : Type where
  parent_uuid : Option String := none
  is_sidechain : Bool
  user_type : UserType
  cwd : String
  session_id : String
  version : String
  message_type : MessageType
  message : Message
  uuid : String
  timestamp : Int
  cost_usd : Option ℚ := none
  duration_ms : Option ℕ := none
  request_id : Option String := none
  tool_use_result : Option (String ⊕ ToolResult) := none
  is_meta : Option Bool := none
  deriving Repr

/-- `SessionMetadata`: aggregated session statistics.
`tool_usage_count` is a Python dict, embedded as an
insertion-ordered association list. -/
structure SessionMetadata : Type where
  total_cost : ℚ := 0
  total_messages : ℕ := 0
  tool_usage_count : List (String × ℕ) := []
  deriving Repr

/-- Modelled from the spec: `ConversationTree` is declared in
`models.py` only as an empty placeholder, but the spec (and the
repository's example scripts, which read `tree.parent_to_children` and
`tree.root_messages`) describe the populated structure: a mapping from
each `uuid` to its children's `uuid`s (the inverse of `parent_uuid`)
plus the set of root messages. -/
structure ConversationTree : Type where
  parent_to_children : List (String × List String) := []
  root_messages : List String := []
  deriving Repr

/-- `ParsedSession`: the session aggregate. -/
structure ParsedSession : Type where
  session_id : String
  messages : List MessageRecord := []
  summaries : List String := []
  conversation_tree : ConversationTree := {}
  metadata : SessionMetadata := {}
  deriving Repr

/-! ## `ParsedSession.calculate_metadata` (models.py lines 275-298)

One linear pass over `self.messages`: costs are accumulated under the
Python truthiness guard `if message.cost_usd:` (so `None` — and a zero
value — contribute nothing), and every `ToolUseBlock` found in any
message's content increments that tool's count via
`tool_usage_count.get(name, 0) + 1`. -/

def countToolsInBlocks (acc : List (String × ℕ)) :
    List MessageContentBlock → List (String × ℕ)
  | [] => acc
  | .toolUse _ name _ :: rest =>
      countToolsInBlocks (dictSet acc name (dictGetD acc name 0 + 1)) rest
  | _ :: rest => countToolsInBlocks acc rest

def metadataPass (cost : ℚ) (counts : List (String × ℕ)) :
    List MessageRecord → ℚ × List (String × ℕ)
  | [] => (cost, counts)
  | m :: rest =>
      let cost := match m.cost_usd with
        | some c => if c = 0 then cost else cost + c
        | none => cost
      metadataPass cost (countToolsInBlocks counts m.message.content) rest

def ParsedSession.calculate_metadata (s : ParsedSession) : SessionMetadata :=
  { total_cost := (metadataPass 0 [] s.messages).1
    total_messages := s.messages.length
    tool_usage_count := (metadataPass 0 [] s.messages).2 }

/-! ## `ParsedSession.validate_session_integrity` (models.py lines 258-273)

If there are messages, every message's `session_id` must equal the
first message's; then `metadata.total_messages` must equal the message
count.  A total boolean function: violations are reported via the
return value, never raised. -/

def ParsedSession.validate_session_integrity (s : ParsedSession) : Bool :=
  (match s.messages with
   | [] => true
   | m0 :: _ => s.messages.all (fun m => m.session_id == m0.session_id))
  && (s.metadata.total_messages == s.messages.length)

/-! ## `Session.cost_by_turn` (session.py lines 114-123)

`Session` subclasses `ParsedSession`; its properties are embedded as
functions on `ParsedSession`. -/

def Session.cost_by_turn (s : ParsedSession) : List ℚ :=
  s.messages.map (fun m => match m.cost_usd with
    | some c => c
    | none => 0)

/-! ## The Session Assembler

`ParsedSession.from_message_records` is invoked from `parser.py` and
`session.py` but its definition is not present in the source tree, so
it is modelled from the spec (section 4.4). -/

/-- Modelled from the spec: step 2 of the Session Assembler.  "For
every record, register it as a child of its `parent_uuid` (if that
parent exists among the given records; otherwise the record is treated
as a root)"; records with no parent are roots. -/
def registerRecord (uuids : List String) (t : ConversationTree)
    (m : MessageRecord) : ConversationTree :=
  match m.parent_uuid with
  | none => { t with root_messages := t.root_messages ++ [m.uuid] }
  | some p =>
      if uuids.contains p then
        { t with parent_to_children :=
            dictSet t.parent_to_children p (dictGetD t.parent_to_children p [] ++ [m.uuid]) }
      else
        { t with root_messages := t.root_messages ++ [m.uuid] }

def buildTreeAux (uuids : List String) (t : ConversationTree) :
    List MessageRecord → ConversationTree
  | [] => t
  | m :: rest => buildTreeAux uuids (registerRecord uuids t m) rest

/-- Modelled from the spec: the conversation-tree construction of the
Session Assembler — one linear pass over the records, producing the
child index and the root list. -/
def buildConversationTree (messages : List MessageRecord) : ConversationTree :=
  buildTreeAux (messages.map (fun m => m.uuid)) {} messages

/-- Modelled from the spec: the Session Assembler
(`ParsedSession.from_message_records`), absent from the source tree.
Given a non-empty ordered list of records and optional session-id and
summary overrides: the session id is the explicit override if given,
else the `session_id` of the first record; the conversation tree is
built from parent pointers; metadata is computed by the linear pass of
`calculate_metadata`.  An empty record list is an error (the Python
call raises `ValueError`). -/
def ParsedSession.from_message_records (messages : List MessageRecord)
    (session_id : Option String)
    (summaries : Option (List String)) :
    Except String ParsedSession :=
  match messages with
  | [] => .error "cannot assemble a session from an empty record list"
  | m0 :: _ =>
      let sid := match session_id with
        | some s => s
        | none => m0.session_id
      let base : ParsedSession :=
        { session_id := sid
          messages := messages
          summaries := summaries.getD []
          conversation_tree := buildConversationTree messages
          metadata := {} }
      .ok { base with metadata := base.calculate_metadata }

/-- `Session.from_message_records` (session.py lines 144-169):
delegates to `ParsedSession.from_message_records` and converts the
result (the `Session` subclass carries the same data, so the embedding
returns the `ParsedSession` itself). -/
def Session.from_message_records (messages : List MessageRecord)
    (session_id : Option String)
    (summaries : Option (List String)) :
    Except String ParsedSession :=
  ParsedSession.from_message_records messages session_id summaries

/-- Session id of an assembly result, when assembly succeeded. -/
def assembledSessionId (r : Except String ParsedSession) : Option String :=
  match r with
  | .ok s => some s.session_id
  | .error _ => none

/-! ## The File Parser (parser.py)

`parse_jsonl_file` streams a file line by line: each line is stripped;
blank lines are skipped; `json.loads` plus `MessageRecord.model_validate`
either yield a record or raise (`JSONDecodeError`, `ValidationError`,
or an unexpected exception), and every such failure is logged and
skipped.  The two library calls are abstracted as a `decode` function
on stripped non-blank lines; the filesystem is a `PathState`. -/

/-- Python `str.strip()` on a log line: leading and trailing
whitespace removed. -/
def isWhitespaceChar (c : Char) : Bool :=
  c = ' ' || c = '\t' || c = '\n' || c = '\r' || c = '\x0b' || c = '\x0c'

def stripLine (l : String) : String :=
  String.mk (((l.data.dropWhile isWhitespaceChar).reverse.dropWhile
    isWhitespaceChar).reverse)

inductive LineResult : Type where
  | jsonError
  | validationError
  | otherError
  | record (r : MessageRecord)

inductive PathState : Type where
  | missing
  | notAFile
  | file (lines : List String)

inductive ParseError : Type where
  | fileNotFound (msg : String)
  | notAFile (msg : String)
  | readFailure (msg : String)
  deriving Repr

def parse_jsonl_lines (decode : String → LineResult) :
    List String → List MessageRecord
  | [] => []
  | line :: rest =>
      let stripped := stripLine line
      if stripped = "" then parse_jsonl_lines decode rest
      else
        match decode stripped with
        | .record r => r :: parse_jsonl_lines decode rest
        | _ => parse_jsonl_lines decode rest

def parse_jsonl_file (decode : String → LineResult) :
    PathState → Except ParseError (List MessageRecord)
  | .missing => .error (.fileNotFound "Session file not found")
  | .notAFile => .error (.notAFile "Session path is not a file")
  | .file lines => .ok (parse_jsonl_lines decode lines)

def parse_session_file (decode : String → LineResult) (p : PathState) :
    Except ParseError (List MessageRecord) :=
  match parse_jsonl_file decode p with
  | .error e => .error e
  | .ok records => .ok records

/-! ## The Record Validator

`MessageRecord.model_validate` embeds Pydantic validation of the
schema declared in `models.py`.  Every model inherits
`ConfigDict(frozen=True, extra="forbid")`, so each object validator
first checks that every present key belongs to the declared field set
(alias names, since aliases are declared and population by field name
is not enabled).  Parsing of UUID strings and ISO timestamps is
delegated to the standard library, abstracted here as the parameters
`isUuid` and `parseTimestamp`. -/

def messageRecordKeys : List String :=
  ["parentUuid", "isSidechain", "userType", "cwd", "sessionId", "version",
   "type", "message", "uuid", "timestamp", "costUSD", "durationMs",
   "requestId", "toolUseResult", "isMeta"]

def messageKeys : List String :=
  ["id", "role", "model", "content", "stop_reason", "usage"]

def textBlockKeys : List String := ["type", "text"]

def thinkingBlockKeys : List String := ["type", "thinking", "signature"]

def toolUseBlockKeys : List String := ["type", "id", "name", "input"]

def tokenUsageKeys : List String :=
  ["input_tokens", "cache_creation_input_tokens", "cache_read_input_tokens",
   "output_tokens", "service_tier"]

def toolResultKeys : List String :=
  ["tool_use_id", "content", "stdout", "stderr", "interrupted", "is_error",
   "metadata"]

def closedSchema (keys : List String) (kvs : List (String × Json)) : Bool :=
  kvs.all (fun kv => keys.contains kv.1)

def asStr : Json → Except String String
  | .str s => .ok s
  | _ => .error "expected a string"

def asBool : Json → Except String Bool
  | .bool b => .ok b
  | _ => .error "expected a boolean"

def asObj : Json → Except String (List (String × Json))
  | .obj kvs => .ok kvs
  | _ => .error "expected an object"

/-- A non-negative integer (`int` field with `ge=0`). -/
def asNonNegInt : Json → Except String ℕ
  | .num n => if n.den = 1 ∧ 0 ≤ n then .ok n.num.toNat else .error "expected a non-negative integer"
  | _ => .error "expected a non-negative integer"

/-- A strictly positive integer (`PositiveInt`). -/
def asPosInt : Json → Except String ℕ
  | .num n => if n.den = 1 ∧ 0 < n then .ok n.num.toNat else .error "expected a positive integer"
  | _ => .error "expected a positive integer"

/-- A strictly positive number (`PositiveFloat`). -/
def asPosRat : Json → Except String ℚ
  | .num n => if 0 < n then .ok n else .error "expected a positive number"
  | _ => .error "expected a positive number"

def asUserType : Json → Except String UserType
  | .str "external" => .ok .external
  | .str "internal" => .ok .internal
  | _ => .error "expected external or internal"

def asMessageType : Json → Except String MessageType
  | .str "user" => .ok .user
  | .str "assistant" => .ok .assistant
  | _ => .error "expected user or assistant"

def asRole : Json → Except String Role
  | .str "user" => .ok .user
  | .str "assistant" => .ok .assistant
  | _ => .error "expected user or assistant"

def asStopReason : Json → Except String StopReason
  | .str "end_turn" => .ok .end_turn
  | .str "max_tokens" => .ok .max_tokens
  | .str "stop_sequence" => .ok .stop_sequence
  | _ => .error "unknown stop reason"

/-- A required field: absent is a validation error. -/
def requiredField {α : Type} (f : Json → Except String α)
    (kvs : List (String × Json)) (k : String) : Except String α :=
  match dictGet kvs k with
  | some j => f j
  | none => .error "missing required field"

/-- An optional nullable field (`T | None = None`): absent or `null`
yields `none`. -/
def optNullableField {α : Type} (f : Json → Except String α)
    (kvs : List (String × Json)) (k : String) : Except String (Option α) :=
  match dictGet kvs k with
  | none => .ok none
  | some .null => .ok none
  | some j => (f j).map some

/-- A field with a non-null default: absent yields the default. -/
def defaultField {α : Type} (f : Json → Except String α)
    (kvs : List (String × Json)) (k : String) (d : α) : Except String α :=
  match dictGet kvs k with
  | none => .ok d
  | some j => f j

/-- A `Literal[v]` field with default `v`. -/
def checkLiteral (kvs : List (String × Json)) (k : String) (v : String) :
    Except String Unit :=
  match dictGet kvs k with
  | none => .ok ()
  | some (.str s) => if s = v then .ok () else .error "literal tag mismatch"
  | some _ => .error "literal tag mismatch"

def validateTextBlock (kvs : List (String × Json)) :
    Except String MessageContentBlock :=
  if closedSchema textBlockKeys kvs then do
    let _ ← checkLiteral kvs "type" "text"
    let text ← requiredField asStr kvs "text"
    pure (.text text)
  else .error "extra fields forbidden"

def validateThinkingBlock (kvs : List (String × Json)) :
    Except String MessageContentBlock :=
  if closedSchema thinkingBlockKeys kvs then do
    let _ ← checkLiteral kvs "type" "thinking"
    let thinking ← requiredField asStr kvs "thinking"
    let signature ← requiredField asStr kvs "signature"
    pure (.thinking thinking signature)
  else .error "extra fields forbidden"

def validateToolUseBlock (kvs : List (String × Json)) :
    Except String MessageContentBlock :=
  if closedSchema toolUseBlockKeys kvs then do
    let _ ← checkLiteral kvs "type" "tool_use"
    let id ← requiredField asStr kvs "id"
    let name ← requiredField asStr kvs "name"
    let input ← requiredField asObj kvs "input"
    pure (.toolUse id name input)
  else .error "extra fields forbidden"

/-- The `MessageContentBlock` union: the three variants are attempted
in declaration order; an entry accepted by none of them (in particular
a `tool_result` entry, or a block object carrying a field unknown to
every variant) is a validation error. -/
def MessageContentBlock.validate (j : Json) : Except String MessageContentBlock :=
  match j with
  | .obj kvs =>
      match validateTextBlock kvs with
      | .ok b => .ok b
      | .error _ =>
          match validateThinkingBlock kvs with
          | .ok b => .ok b
          | .error _ => validateToolUseBlock kvs
  | _ => .error "expected a content block object"

def validateContentBlocks : List Json → Except String (List MessageContentBlock)
  | [] => .ok []
  | j :: rest => do
      let b ← MessageContentBlock.validate j
      let bs ← validateContentBlocks rest
      pure (b :: bs)

def asContentList : Json → Except String (List MessageContentBlock)
  | .arr xs => validateContentBlocks xs
  | _ => .error "expected a list of content blocks"

def TokenUsage.model_validate (j : Json) : Except String TokenUsage :=
  match j with
  | .obj kvs =>
      if closedSchema tokenUsageKeys kvs then do
        let input_tokens ← requiredField asNonNegInt kvs "input_tokens"
        let cache_creation ← defaultField asNonNegInt kvs "cache_creation_input_tokens" 0
        let cache_read ← defaultField asNonNegInt kvs "cache_read_input_tokens" 0
        let output_tokens ← requiredField asNonNegInt kvs "output_tokens"
        let service_tier ← defaultField asStr kvs "service_tier" "standard"
        pure { input_tokens := input_tokens
               cache_creation_input_tokens := cache_creation
               cache_read_input_tokens := cache_read
               output_tokens := output_tokens
               service_tier := service_tier }
      else .error "extra fields forbidden"
  | _ => .error "expected a usage object"

def Message.model_validate (j : Json) : Except String Message :=
  match j with
  | .obj kvs =>
      if closedSchema messageKeys kvs then do
        let id ← optNullableField asStr kvs "id"
        let role ← requiredField asRole kvs "role"
        let model ← optNullableField asStr kvs "model"
        let content ← requiredField asContentList kvs "content"
        let stop_reason ← optNullableField asStopReason kvs "stop_reason"
        let usage ← optNullableField TokenUsage.model_validate kvs "usage"
        pure { id := id
               role := role
               model := model
               content := content
               stop_reason := stop_reason
               usage := usage }
      else .error "extra fields forbidden"
  | _ => .error "expected a message object"

def ToolResult.model_validate (j : Json) : Except String ToolResult :=
  match j with
  | .obj kvs =>
      if closedSchema toolResultKeys kvs then do
        let tool_use_id ← requiredField asStr kvs "tool_use_id"
        let content ← requiredField asStr kvs "content"
        let stdout ← optNullableField asStr kvs "stdout"
        let stderr ← optNullableField asStr kvs "stderr"
        let interrupted ← defaultField asBool kvs "interrupted" false
        let is_error ← defaultField asBool kvs "is_error" false
        let metadata ← defaultField asObj kvs "metadata" []
        pure { tool_use_id := tool_use_id
               content := content
               stdout := stdout
               stderr := stderr
               interrupted := interrupted
               is_error := is_error
               metadata := metadata }
      else .error "extra fields forbidden"
  | _ => .error "expected a tool result object"

def asToolUseResult : Json → Except String (String ⊕ ToolResult)
  | .str s => .ok (.inl s)
  | .obj kvs => (ToolResult.model_validate (.obj kvs)).map .inr
  | _ => .error "expected a string or tool result object"

/-- A UUID field, its string format checked by the delegated
recognizer. -/
def asUuidF (isUuid : String → Bool) : Json → Except String String
  | .str s => if isUuid s then .ok s else .error "invalid uuid"
  | _ => .error "expected a uuid string"

/-- An ISO-8601 timestamp field, its parsing delegated. -/
def asTimestampF (parseTimestamp : String → Option Int) :
    Json → Except String Int
  | .str s =>
      match parseTimestamp s with
      | some t => .ok t
      | none => .error "invalid timestamp"
  | _ => .error "expected a timestamp string"

def MessageRecord.model_validate (isUuid : String → Bool)
    (parseTimestamp : String → Option Int) (j : Json) :
    Except String MessageRecord :=
  match j with
  | .obj kvs =>
      if closedSchema messageRecordKeys kvs then do
        let parent_uuid ← optNullableField (asUuidF isUuid) kvs "parentUuid"
        let is_sidechain ← requiredField asBool kvs "isSidechain"
        let user_type ← requiredField asUserType kvs "userType"
        let cwd ← requiredField asStr kvs "cwd"
        let session_id ← requiredField asStr kvs "sessionId"
        let version ← requiredField asStr kvs "version"
        let message_type ← requiredField asMessageType kvs "type"
        let message ← requiredField Message.model_validate kvs "message"
        let uuid ← requiredField (asUuidF isUuid) kvs "uuid"
        let timestamp ← requiredField (asTimestampF parseTimestamp) kvs "timestamp"
        let cost_usd ← optNullableField asPosRat kvs "costUSD"
        let duration_ms ← optNullableField asPosInt kvs "durationMs"
        let request_id ← optNullableField asStr kvs "requestId"
        let tool_use_result ← optNullableField asToolUseResult kvs "toolUseResult"
        let is_meta ← optNullableField asBool kvs "isMeta"
        pure { parent_uuid := parent_uuid
               is_sidechain := is_sidechain
               user_type := user_type
               cwd := cwd
               session_id := session_id
               version := version
               message_type := message_type
               message := message
               uuid := uuid
               timestamp := timestamp
               cost_usd := cost_usd
               duration_ms := duration_ms
               request_id := request_id
               tool_use_result := tool_use_result
               is_meta := is_meta }
      else .error "extra fields forbidden"
  | _ => .error "expected a record object"

/-! ## Specification-side (declarative) quantities

These restate the spec's wording independently of the operational
definitions above, so that the theorems compare the two. -/

/-- The sum of `cost_usd` over all messages, an absent cost counting
as zero. -/
def sumCosts (messages : List MessageRecord) : ℚ :=
  (messages.map (fun m => m.cost_usd.getD 0)).sum

/-- The number of Tool Use blocks carrying a given tool name in one
content sequence. -/
def countToolUsesInBlocks (name : String) : List MessageContentBlock → ℕ
  | [] => 0
  | .toolUse _ n _ :: rest =>
      (if n = name then 1 else 0) + countToolUsesInBlocks name rest
  | _ :: rest => countToolUsesInBlocks name rest

/-- The number of Tool Use blocks carrying a given tool name across
all messages of a session, regardless of role or sidechain flag. -/
def countToolUses (name : String) (messages : List MessageRecord) : ℕ :=
  (messages.map (fun m => countToolUsesInBlocks name m.message.content)).sum

/-- The spec's child map, stated declaratively: the children of `p`
are the uuids (in file order) of the records whose `parent_uuid` is
`p`, provided `p` occurs among the records' uuids; a `p` absent from
the file has no children registered under it. -/
def childrenSpec (messages : List MessageRecord) (p : String) : List String :=
  if (messages.map (fun m => m.uuid)).contains p then
    (messages.filter (fun m => m.parent_uuid == some p)).map (fun m => m.uuid)
  else []

/-- Whether a record is a root: no parent, or a parent uuid absent
from the file. -/
def isRootRecord (uuids : List String) (m : MessageRecord) : Bool :=
  match m.parent_uuid with
  | none => true
  | some q => !(uuids.contains q)

/-- The spec's root set, stated declaratively, in file order. -/
def rootsSpec (messages : List MessageRecord) : List String :=
  (messages.filter (isRootRecord (messages.map (fun m => m.uuid)))).map
    (fun m => m.uuid)

/-! ## Concrete instances used by witnesses and counterexamples -/

/-- Record A of the spec's two-message example scenario: `uuid=u1`,
no parent, `cost_usd=0.01`, no tools. -/
def recA : MessageRecord :=
  { parent_uuid := none
    is_sidechain := false
    user_type := .external
    cwd := "/home/user/project"
    session_id := "s1"
    version := "1.0.0"
    message_type := .user
    message := { role := .user, content := [.text "hello"] }
    uuid := "u1"
    timestamp := 0
    cost_usd := some (1 / 100) }

/-- Record B of the spec's two-message example scenario: `uuid=u2`,
`parent_uuid=u1`, `cost_usd=0.05`, one Tool Use block named `bash`. -/
def recB : MessageRecord :=
  { parent_uuid := some "u1"
    is_sidechain := false
    user_type := .external
    cwd := "/home/user/project"
    session_id := "s1"
    version := "1.0.0"
    message_type := .assistant
    message := { role := .assistant, content := [.toolUse "t1" "bash" []] }
    uuid := "u2"
    timestamp := 1
    cost_usd := some (5 / 100) }

def okOrEmpty : Except String ParsedSession → ParsedSession
  | .ok s => s
  | .error _ => { session_id := "" }

/-- The session assembled from the example scenario records. -/
def sessionAB : ParsedSession :=
  okOrEmpty (ParsedSession.from_message_records [recA, recB] none none)

/-- A record whose embedded message has role `user` yet contains a
Tool Use block named `bash`. -/
def msgUserBash : MessageRecord :=
  { parent_uuid := none
    is_sidechain := false
    user_type := .external
    cwd := "/home/user/project"
    session_id := "s1"
    version := "1.0.0"
    message_type := .user
    message := { role := .user, content := [.toolUse "t9" "bash" []] }
    uuid := "u9"
    timestamp := 0 }

/-- A session whose only message is the user-role tool-use record. -/
def sessionUserTool : ParsedSession :=
  { session_id := "s1", messages := [msgUserBash] }

/-- Two records agreeing on `session_id = "X"`. -/
def recX1 : MessageRecord :=
  { parent_uuid := none
    is_sidechain := false
    user_type := .external
    cwd := "/home/user/project"
    session_id := "X"
    version := "1.0.0"
    message_type := .user
    message := { role := .user, content := [.text "hi"] }
    uuid := "x1"
    timestamp := 0 }

def recX2 : MessageRecord :=
  { parent_uuid := some "x1"
    is_sidechain := false
    user_type := .external
    cwd := "/home/user/project"
    session_id := "X"
    version := "1.0.0"
    message_type := .assistant
    message := { role := .assistant, content := [.text "hey"] }
    uuid := "x2"
    timestamp := 1 }

/-- A session whose own `session_id` (`"S"`) differs from the (mutually
consistent) `session_id` of all of its records (`"X"`), with a correct
message count in its metadata. -/
def sessionMismatch : ParsedSession :=
  { session_id := "S"
    messages := [recX1, recX2]
    metadata := { total_messages := 2 } }

/-- A line decoder for witnesses: two fixed well-formed lines, all
other non-blank lines are malformed JSON. -/
def decode0 (l : String) : LineResult :=
  if l = "va" then .record recA
  else if l = "vb" then .record recB
  else .jsonError

/-- A session differing from `sessionAB` in everything except its
message list. -/
def sessionABRelabeled : ParsedSession :=
  { session_id := "other"
    messages := [recA, recB]
    summaries := ["a summary"]
    metadata := { total_cost := 42, total_messages := 7 } }

/-- Whether a validation attempt failed. -/
def isErr {α : Type} : Except String α → Bool
  | .error _ => true
  | .ok _ => false

/-- Whether a file parse failed with a `ParseError`. -/
def isParseFailure (r : Except ParseError (List MessageRecord)) : Bool :=
  match r with
  | .error _ => true
  | .ok _ => false

/-- Trivial uuid recognizer for concrete validation inputs. -/
def isUuid0 (s : String) : Bool := s.length > 0

/-- Trivial timestamp parser for concrete validation inputs. -/
def parseTs0 (_s : String) : Option Int := some 0

/-- A decoded record object carrying an unknown top-level field. -/
def objExtraTop : List (String × Json) := [("bogus", Json.null)]

/-- A message object carrying an unknown field. -/
def msgExtraKvs : List (String × Json) := [("bogus", Json.null)]

/-- A record object whose `message` object carries an unknown field. -/
def objExtraInMessage : List (String × Json) :=
  [("message", Json.obj msgExtraKvs)]

/-- A content-block object carrying a field unknown to every block
variant. -/
def blockExtraKvs : List (String × Json) := [("bogus", Json.null)]

/-- A message object whose content holds the bad block. -/
def msgWithBadBlockKvs : List (String × Json) :=
  [("content", Json.arr [Json.obj blockExtraKvs])]

/-- A record object whose nested content block carries an unknown
field. -/
def objExtraInBlock : List (String × Json) :=
  [("message", Json.obj msgWithBadBlockKvs)]

/-- A usage object carrying an unknown field. -/
def usageExtraKvs : List (String × Json) := [("bogus", Json.null)]

/-- A message object whose `usage` object carries an unknown field. -/
def msgWithBadUsageKvs : List (String × Json) :=
  [("usage", Json.obj usageExtraKvs)]

/-- A record object whose nested usage object carries an unknown
field. -/
def objExtraInUsage : List (String × Json) :=
  [("message", Json.obj msgWithBadUsageKvs)]

/-! ## Helper lemmas -/

theorem dictGet_dictSet {V : Type} (d : List (String × V)) (k q : String)
    (v : V) :
    dictGet (dictSet d k v) q = if q = k then some v else dictGet d q := by
  induction d with
  | nil =>
      by_cases h : q = k
      · simp [dictSet, dictGet, h]
      · simp only [dictSet, dictGet, if_neg h]
        rw [if_neg (fun hh => h hh.symm)]
  | cons kv rest ih =>
      obtain ⟨k1, v1⟩ := kv
      by_cases hk : k1 = k <;> by_cases hq : q = k <;>
        by_cases hq1 : k1 = q <;>
        simp_all [dictSet, dictGet]

theorem countToolsInBlocks_getD (blocks : List MessageContentBlock) :
    ∀ (acc : List (String × ℕ)) (name : String),
    dictGetD (countToolsInBlocks acc blocks) name 0 =
      dictGetD acc name 0 + countToolUsesInBlocks name blocks := by
  induction blocks with
  | nil => intro acc name; simp [countToolsInBlocks, countToolUsesInBlocks]
  | cons b rest ih =>
      intro acc name
      cases b with
      | text t =>
          simpa [countToolsInBlocks, countToolUsesInBlocks] using ih acc name
      | thinking th sg =>
          simpa [countToolsInBlocks, countToolUsesInBlocks] using ih acc name
      | toolUse i n inp =>
          simp only [countToolsInBlocks, countToolUsesInBlocks]
          rw [ih]
          by_cases h : n = name
          · subst h
            simp [dictGetD, dictGet_dictSet]
            omega
          · have hne : name ≠ n := fun hh => h hh.symm
            simp [dictGetD, dictGet_dictSet, h, hne]

theorem metadataPass_snd (ms : List MessageRecord) :
    ∀ (cost : ℚ) (counts : List (String × ℕ)),
    (metadataPass cost counts ms).2 =
      (ms.map (fun m => m.message.content)).foldl countToolsInBlocks counts := by
  induction ms with
  | nil => intro cost counts; rfl
  | cons m rest ih =>
      intro cost counts
      cases h : m.cost_usd with
      | none => simp [metadataPass, h, ih]
      | some c =>
          by_cases hc : c = 0 <;> simp [metadataPass, h, hc, ih]

theorem metadataPass_fst (ms : List MessageRecord) :
    ∀ (cost : ℚ) (counts : List (String × ℕ)),
    (metadataPass cost counts ms).1 = cost + sumCosts ms := by
  induction ms with
  | nil => intro cost counts; simp [metadataPass, sumCosts]
  | cons m rest ih =>
      intro cost counts
      cases h : m.cost_usd with
      | none => simp [metadataPass, h, ih, sumCosts]
      | some c =>
          by_cases hc : c = 0
          · subst hc
            simp [metadataPass, h, ih, sumCosts]
          · simp only [metadataPass, h, if_neg hc]
            rw [ih]
            simp only [sumCosts, List.map_cons, List.sum_cons, h,
              Option.getD_some]
            ring

theorem foldCounts_getD (contents : List (List MessageContentBlock)) :
    ∀ (counts : List (String × ℕ)) (name : String),
    dictGetD (contents.foldl countToolsInBlocks counts) name 0 =
      dictGetD counts name 0 +
        (contents.map (countToolUsesInBlocks name)).sum := by
  induction contents with
  | nil => intro counts name; simp
  | cons c rest ih =>
      intro counts name
      simp only [List.foldl_cons, List.map_cons, List.sum_cons]
      rw [ih, countToolsInBlocks_getD]
      omega

theorem calculate_metadata_total_cost (s : ParsedSession) :
    (s.calculate_metadata).total_cost = sumCosts s.messages := by
  unfold ParsedSession.calculate_metadata
  rw [metadataPass_fst]
  ring

theorem calculate_metadata_counts (s : ParsedSession) :
    (s.calculate_metadata).tool_usage_count =
      (s.messages.map (fun m => m.message.content)).foldl countToolsInBlocks [] := by
  unfold ParsedSession.calculate_metadata
  rw [metadataPass_snd]

theorem costFold_eq (ms : List MessageRecord) :
    ∀ (a : ℚ),
    List.foldl (fun acc c => acc + c) a
        (ms.map (fun m => m.cost_usd.getD 0)) = a + sumCosts ms := by
  induction ms with
  | nil => intro a; simp [sumCosts]
  | cons m rest ih =>
      intro a
      simp only [List.map_cons, List.foldl_cons]
      rw [ih]
      simp [sumCosts]
      ring

theorem buildTreeAux_children (uuids : List String)
    (ms : List MessageRecord) :
    ∀ (t : ConversationTree) (p : String),
    dictGetD (buildTreeAux uuids t ms).parent_to_children p [] =
      dictGetD t.parent_to_children p [] ++
        (ms.filter
          (fun m => m.parent_uuid == some p && uuids.contains p)).map
          (fun m => m.uuid) := by
  induction ms with
  | nil => intro t p; simp [buildTreeAux]
  | cons m rest ih =>
      intro t p
      simp only [buildTreeAux, List.filter_cons]
      rw [ih]
      cases hpu : m.parent_uuid with
      | none => simp [registerRecord, hpu]
      | some q =>
          by_cases hq : q ∈ uuids
          · by_cases hqp : q = p
            · subst hqp
              simp only [registerRecord, hpu]
              simp [hq, dictGetD, dictGet_dictSet, List.append_assoc]
            · have hne : p ≠ q := fun hh => hqp hh.symm
              simp only [registerRecord, hpu]
              simp [hq, hqp, dictGetD, dictGet_dictSet, hne]
          · by_cases hqp : q = p
            · subst hqp
              simp only [registerRecord, hpu]
              simp [hq, dictGetD]
            · simp only [registerRecord, hpu]
              simp [hq, hqp, dictGetD]

theorem buildTreeAux_roots (uuids : List String) (ms : List MessageRecord) :
    ∀ (t : ConversationTree),
    (buildTreeAux uuids t ms).root_messages =
      t.root_messages ++
        (ms.filter (isRootRecord uuids)).map (fun m => m.uuid) := by
  induction ms with
  | nil => intro t; simp [buildTreeAux]
  | cons m rest ih =>
      intro t
      simp only [buildTreeAux]
      rw [ih]
      cases hpu : m.parent_uuid with
      | none =>
          simp [registerRecord, hpu, isRootRecord, List.filter_cons,
            List.append_assoc]
      | some q =>
          by_cases hq : q ∈ uuids
          · simp [registerRecord, hpu, hq, isRootRecord, List.filter_cons]
          · simp [registerRecord, hpu, hq, isRootRecord, List.filter_cons,
              List.append_assoc]

theorem buildConversationTree_children (messages : List MessageRecord)
    (p : String) :
    dictGetD (buildConversationTree messages).parent_to_children p [] =
      childrenSpec messages p := by
  unfold buildConversationTree childrenSpec
  rw [buildTreeAux_children]
  by_cases h : p ∈ messages.map (fun m => m.uuid)
  · simp [h, dictGetD, dictGet]
  · simp [h, dictGetD, dictGet]

theorem buildConversationTree_roots (messages : List MessageRecord) :
    (buildConversationTree messages).root_messages = rootsSpec messages := by
  unfold buildConversationTree rootsSpec
  rw [buildTreeAux_roots]
  rfl

theorem from_message_records_ok {messages : List MessageRecord}
    {sid : Option String} {summ : Option (List String)} {s : ParsedSession}
    (h : ParsedSession.from_message_records messages sid summ = .ok s) :
    s.conversation_tree = buildConversationTree messages ∧
    s.messages = messages := by
  cases messages with
  | nil => simp [ParsedSession.from_message_records] at h
  | cons m0 rest =>
      simp only [ParsedSession.from_message_records, Except.ok.injEq] at h
      subst h
      exact ⟨rfl, rfl⟩

theorem parse_session_file_eq (decode : String → LineResult)
    (lines : List String) :
    parse_session_file decode (.file lines) =
      .ok (parse_jsonl_lines decode lines) := rfl

theorem parse_jsonl_lines_append (decode : String → LineResult)
    (xs ys : List String) :
    parse_jsonl_lines decode (xs ++ ys) =
      parse_jsonl_lines decode xs ++ parse_jsonl_lines decode ys := by
  induction xs with
  | nil => rfl
  | cons l rest ih =>
      simp only [List.cons_append, parse_jsonl_lines]
      by_cases h : stripLine l = ""
      · simp [h, ih]
      · cases hd : decode (stripLine l) <;> simp [h, hd, ih]

theorem parse_jsonl_lines_valid (decode : String → LineResult)
    {lines : List String} {recs : List MessageRecord}
    (h : List.Forall₂
      (fun l r => stripLine l ≠ "" ∧ decode (stripLine l) = .record r)
      lines recs) :
    parse_jsonl_lines decode lines = recs := by
  induction h with
  | nil => rfl
  | cons hd _tl ih =>
      obtain ⟨hne, hdec⟩ := hd
      simp [parse_jsonl_lines, hne, hdec, ih]

theorem isErr_bind {α β : Type} (e : Except String α)
    (f : α → Except String β)
    (h : ∀ a, e = .ok a → isErr (f a) = true) : isErr (e >>= f) = true := by
  cases e with
  | error e => rfl
  | ok a => exact h a rfl

theorem isErr_bind_left {α β : Type} (e : Except String α)
    (f : α → Except String β) (h : isErr e = true) :
    isErr (e >>= f) = true := by
  cases e with
  | error e => rfl
  | ok a => simp [isErr] at h

theorem isErr_map {α β : Type} (e : Except String α) (f : α → β) :
    isErr (e.map f) = isErr e := by
  cases e <;> rfl

theorem closedSchema_false {keys : List String} {kvs : List (String × Json)}
    {k : String} {v : Json} (hmem : (k, v) ∈ kvs) (hk : k ∉ keys) :
    closedSchema keys kvs = false := by
  rw [Bool.eq_false_iff]
  intro hall
  have hc := List.all_eq_true.mp hall (k, v) hmem
  simp at hc
  exact hk hc

theorem message_extra_err {mkvs : List (String × Json)} {k : String}
    {v : Json} (hmem : (k, v) ∈ mkvs) (hk : k ∉ messageKeys) :
    isErr (Message.model_validate (.obj mkvs)) = true := by
  simp [Message.model_validate, closedSchema_false hmem hk, isErr]

theorem record_err_of_message {isU : String → Bool}
    {pT : String → Option Int} {kvs : List (String × Json)} {mj : Json}
    (hmsg : dictGet kvs "message" = some mj)
    (h : isErr (Message.model_validate mj) = true) :
    isErr (MessageRecord.model_validate isU pT (.obj kvs)) = true := by
  simp only [MessageRecord.model_validate]
  by_cases hc : closedSchema messageRecordKeys kvs = true
  · rw [if_pos hc]
    refine isErr_bind _ _ (fun a1 h1 => ?_)
    refine isErr_bind _ _ (fun a2 h2 => ?_)
    refine isErr_bind _ _ (fun a3 h3 => ?_)
    refine isErr_bind _ _ (fun a4 h4 => ?_)
    refine isErr_bind _ _ (fun a5 h5 => ?_)
    refine isErr_bind _ _ (fun a6 h6 => ?_)
    refine isErr_bind _ _ (fun a7 h7 => ?_)
    apply isErr_bind_left
    simp only [requiredField, hmsg]
    exact h
  · rw [if_neg hc]
    rfl

theorem validateTextBlock_extra {bkvs : List (String × Json)} {k : String}
    {v : Json} (hmem : (k, v) ∈ bkvs) (hk : k ∉ textBlockKeys) :
    validateTextBlock bkvs = .error "extra fields forbidden" := by
  unfold validateTextBlock
  rw [closedSchema_false hmem hk]
  rfl

theorem validateThinkingBlock_extra {bkvs : List (String × Json)}
    {k : String} {v : Json} (hmem : (k, v) ∈ bkvs)
    (hk : k ∉ thinkingBlockKeys) :
    validateThinkingBlock bkvs = .error "extra fields forbidden" := by
  unfold validateThinkingBlock
  rw [closedSchema_false hmem hk]
  rfl

theorem validateToolUseBlock_extra {bkvs : List (String × Json)} {k : String}
    {v : Json} (hmem : (k, v) ∈ bkvs) (hk : k ∉ toolUseBlockKeys) :
    validateToolUseBlock bkvs = .error "extra fields forbidden" := by
  unfold validateToolUseBlock
  rw [closedSchema_false hmem hk]
  rfl

theorem contentBlock_extra_err {bkvs : List (String × Json)} {k : String}
    {v : Json} (hmem : (k, v) ∈ bkvs) (h1 : k ∉ textBlockKeys)
    (h2 : k ∉ thinkingBlockKeys) (h3 : k ∉ toolUseBlockKeys) :
    isErr (MessageContentBlock.validate (.obj bkvs)) = true := by
  simp only [MessageContentBlock.validate, validateTextBlock_extra hmem h1,
    validateThinkingBlock_extra hmem h2, validateToolUseBlock_extra hmem h3]
  rfl

theorem validateContentBlocks_err {xs : List Json} {j : Json} (hj : j ∈ xs)
    (h : isErr (MessageContentBlock.validate j) = true) :
    isErr (validateContentBlocks xs) = true := by
  induction xs with
  | nil => cases hj
  | cons y ys ih =>
      simp only [validateContentBlocks]
      rcases List.mem_cons.mp hj with h1 | h1
      · subst h1
        exact isErr_bind_left _ _ h
      · refine isErr_bind _ _ (fun b hb => ?_)
        exact isErr_bind_left _ _ (ih h1)

theorem message_err_of_content {mkvs : List (String × Json)}
    {xs : List Json} (hcontent : dictGet mkvs "content" = some (.arr xs))
    (h : isErr (validateContentBlocks xs) = true) :
    isErr (Message.model_validate (.obj mkvs)) = true := by
  simp only [Message.model_validate]
  by_cases hc : closedSchema messageKeys mkvs = true
  · rw [if_pos hc]
    refine isErr_bind _ _ (fun a1 h1 => ?_)
    refine isErr_bind _ _ (fun a2 h2 => ?_)
    refine isErr_bind _ _ (fun a3 h3 => ?_)
    apply isErr_bind_left
    simp only [requiredField, hcontent, asContentList]
    exact h
  · rw [if_neg hc]
    rfl

theorem message_err_of_usage {mkvs ukvs : List (String × Json)} {k : String}
    {v : Json} (husage : dictGet mkvs "usage" = some (.obj ukvs))
    (hmem : (k, v) ∈ ukvs) (hk : k ∉ tokenUsageKeys) :
    isErr (Message.model_validate (.obj mkvs)) = true := by
  simp only [Message.model_validate]
  by_cases hc : closedSchema messageKeys mkvs = true
  · rw [if_pos hc]
    refine isErr_bind _ _ (fun a1 h1 => ?_)
    refine isErr_bind _ _ (fun a2 h2 => ?_)
    refine isErr_bind _ _ (fun a3 h3 => ?_)
    refine isErr_bind _ _ (fun a4 h4 => ?_)
    refine isErr_bind _ _ (fun a5 h5 => ?_)
    apply isErr_bind_left
    simp only [optNullableField, husage]
    rw [isErr_map]
    simp [TokenUsage.model_validate, closedSchema_false hmem hk, isErr]
  · rw [if_neg hc]
    rfl

/-! ## Claim theorems -/

/-- C1: for every assembled session, the conversation tree maps each
uuid to the list of its children's uuids (the inverse of
`parent_uuid`, registered only under parents present in the file) and
holds the roots (records with no parent or with a parent absent from
the file); on the two-record example session, `root_messages = [u1]`
and `parent_to_children[u1] = [u2]`. -/
theorem C1_conversation_tree :
    (∀ (messages : List MessageRecord) (sid : Option String)
        (summ : Option (List String)) (s : ParsedSession),
        ParsedSession.from_message_records messages sid summ = .ok s →
        (∀ p, dictGetD s.conversation_tree.parent_to_children p [] =
          childrenSpec messages p) ∧
        s.conversation_tree.root_messages = rootsSpec messages) ∧
    sessionAB.conversation_tree.root_messages = ["u1"] ∧
    dictGet sessionAB.conversation_tree.parent_to_children "u1" =
      some ["u2"] := by
  refine ⟨?_, rfl, rfl⟩
  intro messages sid summ s h
  obtain ⟨hct, _⟩ := from_message_records_ok h
  rw [hct]
  exact ⟨fun p => buildConversationTree_children messages p,
    buildConversationTree_roots messages⟩

/-- C1 witness: the general tree characterization applied to the
assembled two-record example session. -/
theorem C1_conversation_tree_witness :
    dictGetD sessionAB.conversation_tree.parent_to_children "u1" [] =
      childrenSpec [recA, recB] "u1" ∧
    sessionAB.conversation_tree.root_messages = rootsSpec [recA, recB] :=
  ⟨(C1_conversation_tree.1 [recA, recB] none none sessionAB rfl).1 "u1",
   (C1_conversation_tree.1 [recA, recB] none none sessionAB rfl).2⟩

/-- C2: the Session Assembler gives the assembled session the explicit
session-id override when one is supplied, and otherwise the
`session_id` of the first record. -/
theorem C2_session_id_assembly (m0 : MessageRecord)
    (rest : List MessageRecord) (summ : Option (List String)) :
    (∀ sid : String,
      assembledSessionId
        (Session.from_message_records (m0 :: rest) (some sid) summ) =
        some sid) ∧
    assembledSessionId (Session.from_message_records (m0 :: rest) none summ) =
      some m0.session_id :=
  ⟨fun _ => rfl, rfl⟩

/-- C3 counterexample: a Tool Use block inside a user-role message IS
counted by `calculate_metadata` — on a session whose only message has
role `user` and one `bash` tool-use block, the count for `bash` is 1,
not 0 as the claim requires. -/
theorem C3_counterexample :
    msgUserBash.message.role = Role.user ∧
    dictGet (sessionUserTool.calculate_metadata).tool_usage_count "bash" =
      some 1 :=
  ⟨rfl, rfl⟩

/-- C3 (amended): `tool_usage_count` maps each tool name to the number
of Tool Use blocks with that name across the content of ALL messages,
regardless of the embedding message's role. -/
theorem C3_tool_count_amended (s : ParsedSession) (name : String) :
    dictGetD (s.calculate_metadata).tool_usage_count name 0 =
      countToolUses name s.messages := by
  rw [calculate_metadata_counts, foldCounts_getD]
  simp only [dictGetD, dictGet, Option.getD_none, Nat.zero_add,
    countToolUses, List.map_map]
  rfl

/-- C4: `calculate_metadata` returns the sum of present costs (absent
as zero) as `total_cost`, the length of the message list as
`total_messages`, and a tool count that ignores sidechain flags
(reassigning `is_sidechain` arbitrarily leaves `tool_usage_count`
unchanged). -/
theorem C4_metadata_linear_pass (s : ParsedSession) :
    (s.calculate_metadata).total_cost = sumCosts s.messages ∧
    (s.calculate_metadata).total_messages = s.messages.length ∧
    ∀ g : MessageRecord → Bool,
      (ParsedSession.calculate_metadata
          { s with messages :=
              s.messages.map (fun m => { m with is_sidechain := g m }) }).tool_usage_count =
        (s.calculate_metadata).tool_usage_count := by
  refine ⟨calculate_metadata_total_cost s, rfl, ?_⟩
  intro g
  rw [calculate_metadata_counts, calculate_metadata_counts, List.map_map]
  rfl

/-- C5 counterexample: `validate_session_integrity` compares records
against the FIRST record's `session_id`, not the session's own: a
session whose `session_id` is `S` while all its records carry `X`
still validates as `true`, contradicting the claimed iff. -/
theorem C5_counterexample :
    sessionMismatch.validate_session_integrity = true ∧
    recX1 ∈ sessionMismatch.messages ∧
    recX1.session_id ≠ sessionMismatch.session_id := by
  refine ⟨rfl, ?_, by decide⟩
  simp [sessionMismatch]

/-- C5 (amended): `validate_session_integrity` returns `true` iff
every record's `session_id` equals the FIRST record's `session_id`
and `metadata.total_messages` equals the message count; the check is a
total boolean function, so a violation is reported via the result,
never raised and never corrected. -/
theorem C5_integrity_amended (s : ParsedSession) :
    s.validate_session_integrity = true ↔
      ((∀ m0, s.messages.head? = some m0 →
          ∀ m ∈ s.messages, m.session_id = m0.session_id) ∧
        s.metadata.total_messages = s.messages.length) := by
  unfold ParsedSession.validate_session_integrity
  rw [Bool.and_eq_true]
  cases hm : s.messages with
  | nil => simp
  | cons m0 rest =>
      simp [List.all_eq_true, beq_iff_eq]

/-- C6: a file of well-formed record lines with one malformed JSON
line interleaved parses successfully to exactly the well-formed
records in file order; the malformed line is skipped, and a blank line
in the same position is likewise skipped without being an error. -/
theorem C6_malformed_line_resilience (decode : String → LineResult)
    (before after : List String) (recsB recsA : List MessageRecord)
    (bad blank : String)
    (hb : List.Forall₂
      (fun l r => stripLine l ≠ "" ∧ decode (stripLine l) = .record r)
      before recsB)
    (ha : List.Forall₂
      (fun l r => stripLine l ≠ "" ∧ decode (stripLine l) = .record r)
      after recsA)
    (hbad1 : stripLine bad ≠ "")
    (hbad2 : decode (stripLine bad) = .jsonError)
    (hblank : stripLine blank = "") :
    parse_session_file decode (.file (before ++ bad :: after)) =
      .ok (recsB ++ recsA) ∧
    parse_session_file decode (.file (before ++ blank :: after)) =
      .ok (recsB ++ recsA) := by
  constructor
  · rw [parse_session_file_eq, parse_jsonl_lines_append,
      parse_jsonl_lines_valid decode hb]
    simp only [parse_jsonl_lines, hbad2]
    rw [if_neg hbad1, parse_jsonl_lines_valid decode ha]
  · rw [parse_session_file_eq, parse_jsonl_lines_append,
      parse_jsonl_lines_valid decode hb]
    simp only [parse_jsonl_lines]
    rw [if_pos hblank, parse_jsonl_lines_valid decode ha]

/-- C6 witness: a concrete three-line file with a malformed middle
line, and one with a blank middle line. -/
theorem C6_malformed_line_resilience_witness :
    parse_session_file decode0 (.file ["va", "x", "vb"]) =
      .ok [recA, recB] ∧
    parse_session_file decode0 (.file ["va", "", "vb"]) =
      .ok [recA, recB] :=
  C6_malformed_line_resilience decode0 ["va"] ["vb"] [recA] [recB] "x" ""
    (List.Forall₂.cons ⟨by decide, rfl⟩ List.Forall₂.nil)
    (List.Forall₂.cons ⟨by decide, rfl⟩ List.Forall₂.nil)
    (by decide) rfl rfl

/-- C7: a missing path or a path that is not a regular file makes
`parse_session_file` fail the whole operation with a parse error — the
result carries no record list at all. -/
theorem C7_file_level_failure (decode : String → LineResult) :
    isParseFailure (parse_session_file decode .missing) = true ∧
    isParseFailure (parse_session_file decode .notAFile) = true :=
  ⟨rfl, rfl⟩

/-- C8: the record schema is closed — an unknown field at the top
level, inside the `message` object, inside a content-block object
(unknown to every block variant), or inside the `usage` object makes
Record Validation fail with a decode error. -/
theorem C8_closed_schema :
    (∀ (isU : String → Bool) (pT : String → Option Int)
        (kvs : List (String × Json)) (k : String) (v : Json),
        (k, v) ∈ kvs → k ∉ messageRecordKeys →
        isErr (MessageRecord.model_validate isU pT (.obj kvs)) = true) ∧
    (∀ (isU : String → Bool) (pT : String → Option Int)
        (kvs mkvs : List (String × Json)) (k : String) (v : Json),
        dictGet kvs "message" = some (.obj mkvs) →
        (k, v) ∈ mkvs → k ∉ messageKeys →
        isErr (MessageRecord.model_validate isU pT (.obj kvs)) = true) ∧
    (∀ (isU : String → Bool) (pT : String → Option Int)
        (kvs mkvs : List (String × Json)) (xs : List Json)
        (bkvs : List (String × Json)) (k : String) (v : Json),
        dictGet kvs "message" = some (.obj mkvs) →
        dictGet mkvs "content" = some (.arr xs) →
        Json.obj bkvs ∈ xs → (k, v) ∈ bkvs →
        k ∉ textBlockKeys → k ∉ thinkingBlockKeys → k ∉ toolUseBlockKeys →
        isErr (MessageRecord.model_validate isU pT (.obj kvs)) = true) ∧
    (∀ (isU : String → Bool) (pT : String → Option Int)
        (kvs mkvs ukvs : List (String × Json)) (k : String) (v : Json),
        dictGet kvs "message" = some (.obj mkvs) →
        dictGet mkvs "usage" = some (.obj ukvs) →
        (k, v) ∈ ukvs → k ∉ tokenUsageKeys →
        isErr (MessageRecord.model_validate isU pT (.obj kvs)) = true) := by
  refine ⟨?_, ?_, ?_, ?_⟩
  · intro isU pT kvs k v hmem hk
    simp [MessageRecord.model_validate, closedSchema_false hmem hk, isErr]
  · intro isU pT kvs mkvs k v hmsg hmem hk
    exact record_err_of_message hmsg (message_extra_err hmem hk)
  · intro isU pT kvs mkvs xs bkvs k v hmsg hcontent hblk hmem h1 h2 h3
    exact record_err_of_message hmsg
      (message_err_of_content hcontent
        (validateContentBlocks_err hblk (contentBlock_extra_err hmem h1 h2 h3)))
  · intro isU pT kvs mkvs ukvs k v hmsg husage hmem hk
    exact record_err_of_message hmsg (message_err_of_usage husage hmem hk)

/-- C8 witness: four concrete decoded objects, each carrying one
unknown field at a different nesting depth, all rejected. -/
theorem C8_closed_schema_witness :
    isErr (MessageRecord.model_validate isUuid0 parseTs0
      (.obj objExtraTop)) = true ∧
    isErr (MessageRecord.model_validate isUuid0 parseTs0
      (.obj objExtraInMessage)) = true ∧
    isErr (MessageRecord.model_validate isUuid0 parseTs0
      (.obj objExtraInBlock)) = true ∧
    isErr (MessageRecord.model_validate isUuid0 parseTs0
      (.obj objExtraInUsage)) = true :=
  ⟨C8_closed_schema.1 isUuid0 parseTs0 objExtraTop "bogus" Json.null
      (by simp [objExtraTop]) (by decide),
   C8_closed_schema.2.1 isUuid0 parseTs0 objExtraInMessage msgExtraKvs
      "bogus" Json.null rfl (by simp [msgExtraKvs]) (by decide),
   C8_closed_schema.2.2.1 isUuid0 parseTs0 objExtraInBlock
      msgWithBadBlockKvs [Json.obj blockExtraKvs] blockExtraKvs "bogus"
      Json.null rfl rfl (by simp) (by simp [blockExtraKvs]) (by decide)
      (by decide) (by decide),
   C8_closed_schema.2.2.2 isUuid0 parseTs0 objExtraInUsage
      msgWithBadUsageKvs usageExtraKvs "bogus" Json.null rfl rfl
      (by simp [usageExtraKvs]) (by decide)⟩

/-- C9: metadata recomputation is a pure function of the (immutable)
message list — two invocations over the same messages yield identical
`SessionMetadata`, whatever else differs. -/
theorem C9_metadata_idempotent (s t : ParsedSession)
    (h : s.messages = t.messages) :
    s.calculate_metadata = t.calculate_metadata := by
  unfold ParsedSession.calculate_metadata
  rw [h]

/-- C9 witness: two concretely different sessions sharing one message
list get identical recomputed metadata. -/
theorem C9_metadata_idempotent_witness :
    sessionAB.calculate_metadata = sessionABRelabeled.calculate_metadata :=
  C9_metadata_idempotent sessionAB sessionABRelabeled rfl

/-- C10: when a session's stored metadata was produced by
`calculate_metadata`, `cost_by_turn` has one entry per message in
order (the cost, absent as zero) and its left-to-right sum equals
`metadata.total_cost` exactly. -/
theorem C10_cost_by_turn_consistent (s : ParsedSession)
    (h : s.metadata = s.calculate_metadata) :
    (Session.cost_by_turn s).length = s.messages.length ∧
    Session.cost_by_turn s = s.messages.map (fun m => m.cost_usd.getD 0) ∧
    (Session.cost_by_turn s).foldl (fun a c => a + c) 0 =
      s.metadata.total_cost := by
  have hmap : Session.cost_by_turn s =
      s.messages.map (fun m => m.cost_usd.getD 0) := by
    unfold Session.cost_by_turn
    have hfun : ∀ l : List MessageRecord,
        l.map (fun m => match m.cost_usd with
          | some c => c
          | none => 0) = l.map (fun m => m.cost_usd.getD 0) := by
      intro l
      induction l with
      | nil => rfl
      | cons m rest ih =>
          simp only [List.map_cons, ih]
          cases hmc : m.cost_usd <;> simp [hmc]
    exact hfun s.messages
  refine ⟨?_, hmap, ?_⟩
  · rw [hmap]
    simp
  · rw [hmap, costFold_eq, h, calculate_metadata_total_cost]
    ring

/-- C10 witness: the assembled example session, whose metadata is by
construction the recomputed one. -/
theorem C10_cost_by_turn_consistent_witness :
    (Session.cost_by_turn sessionAB).length = sessionAB.messages.length ∧
    Session.cost_by_turn sessionAB =
      sessionAB.messages.map (fun m => m.cost_usd.getD 0) ∧
    (Session.cost_by_turn sessionAB).foldl (fun a c => a + c) 0 =
      sessionAB.metadata.total_cost :=
  C10_cost_by_turn_consistent sessionAB rfl

end ClaudeSDK
